/-
Verification of the neso_octowatch data pipeline against its specification.

The definitions below are a shallow embedding of the Python sources:
  * custom_components/neso_octowatch/__init__.py  (DfsSessionWatchCoordinator)
  * nesoscan.py                                   (standalone script)

Modelling conventions:
  * Delivery dates are day numbers (Int): `pd.to_datetime` on a date string
    yields midnight of that day; comparisons and min/max on dates are the
    integer ones.
  * A pandas/Python timestamp is a wall-clock time (seconds since the epoch
    in the wall clock, plus microseconds) together with an optional fixed
    UTC offset in seconds (`tzinfo`).  `replace(tzinfo=...)` changes the
    offset keeping the wall time, `astimezone(tz)` converts the instant.
  * Numeric price fields may arrive number- or string-typed; `astype(float)`
    style coercion is modelled by `PriceVal.toQ`.  Prices are rationals.
  * `DFS Volume MW` and the bid table's MW / guaranteed-price fields are
    integral in every property considered here and are modelled as `Int`
    (their f-string rendering is then `toString`).
  * `sort_values` is modelled by a stable sort (`List.insertionSort`).
-/
import Mathlib

namespace NesoOctowatch

/-! ## The value model of the record normalizer

`Value` covers the dynamically-typed values that flow through
`_convert_to_serializable` / `convert_to_serializable`: null-likes
(`None`, `NaN`/`NaT`), strings, plain Python numbers, numpy wrapper
numbers (which expose `.item()`), timestamps, lists and dicts. -/

/-- A Python/pandas timestamp: wall-clock seconds since the epoch,
microseconds, and an optional fixed UTC offset in seconds (`tzinfo`). -/
structure PyDateTime where
  wallSec : Int
  micro : Nat
  offset : Option Int
  deriving DecidableEq, Repr

inductive Value where
  /-- Python `None`. -/
  | vNull
  /-- `float('nan')` / `pd.NaT`: caught by `pd.isna`. -/
  | vNaN
  | vStr (s : String)
  | vInt (n : Int)
  | vFloat (q : ℚ)
  /-- numpy integer (has `.item()`). -/
  | vNpInt (n : Int)
  /-- numpy float (has `.item()`), not NaN (NaN is `vNaN`). -/
  | vNpFloat (q : ℚ)
  | vTime (t : PyDateTime)
  | vList (xs : List Value)
  /-- A Python tuple (normalized to a list by the sequence branch). -/
  | vTuple (xs : List Value)
  | vDict (xs : List (String × Value))

/-! ### Rendering timestamps (`isoformat`) -/

/-- Two-digit zero padding. -/
def pad2 (n : Nat) : String :=
  if n < 10 then "0" ++ toString n else toString n

/-- Four-digit zero padding (years). -/
def pad4 (n : Nat) : String :=
  if n < 10 then "000" ++ toString n
  else if n < 100 then "00" ++ toString n
  else if n < 1000 then "0" ++ toString n
  else toString n

/-- Six-digit zero padding (microseconds). -/
def pad6 (n : Nat) : String :=
  let s := toString n
  String.mk (List.replicate (6 - s.length) '0') ++ s

/-- Convert days since 1970-01-01 to a (year, month, day) civil date
(Gregorian calendar, standard days-to-civil algorithm; `Int.ediv`/`emod`
give floor semantics for the positive divisors used here). -/
def civilFromDays (z0 : Int) : Int × Nat × Nat :=
  let z := z0 + 719468
  let era := z.ediv 146097
  let doe := (z.emod 146097).toNat
  let yoe := (doe - doe / 1460 + doe / 36524 - doe / 146096) / 365
  let y := (yoe : Int) + era * 400
  let doy := doe - (365 * yoe + yoe / 4 - yoe / 100)
  let mp := (5 * doy + 2) / 153
  let d := doy - (153 * mp + 2) / 5 + 1
  let m := if mp < 10 then mp + 3 else mp - 9
  (if m ≤ 2 then y + 1 else y, m, d)

/-- `YYYY-MM-DD` for a day number. -/
def dateStr (day : Int) : String :=
  let c := civilFromDays day
  pad4 c.1.toNat ++ "-" ++ pad2 c.2.1 ++ "-" ++ pad2 c.2.2

/-- Render a fixed UTC offset (seconds) as `+HH:MM` / `-HH:MM`. -/
def offsetStr (o : Int) : String :=
  let sign := if o < 0 then "-" else "+"
  let a := o.natAbs
  sign ++ pad2 (a / 3600) ++ ":" ++ pad2 (a % 3600 / 60)

/-- Python `datetime.isoformat()`: date `T` time, microseconds only when
non-zero, offset only when aware. -/
def isoformat (t : PyDateTime) : String :=
  let day := t.wallSec.ediv 86400
  let sod := (t.wallSec.emod 86400).toNat
  let timePart :=
    pad2 (sod / 3600) ++ ":" ++ pad2 (sod % 3600 / 60) ++ ":" ++ pad2 (sod % 60)
  let microPart := if t.micro = 0 then "" else "." ++ pad6 t.micro
  let offPart := match t.offset with
    | none => ""
    | some o => offsetStr o
  dateStr day ++ "T" ++ timePart ++ microPart ++ offPart

/-! ### The two normalizers -/

/-- The timestamp branch of the coordinator's `_convert_to_serializable`
(`loc` is the process-local UTC offset in seconds,
`datetime.now().astimezone().tzinfo`):
if the value is naive, `replace` attaches the local offset (wall time kept);
then `astimezone(local)` converts the instant to the local offset; finally
`replace(microsecond=0).isoformat()`. -/
def haTimestampString (loc : Int) (t : PyDateTime) : String :=
  let t1 : PyDateTime := match t.offset with
    | none => { t with offset := some loc }
    | some o => { t with offset := some o }
  let o := t1.offset.getD loc
  isoformat { wallSec := t1.wallSec - o + loc, micro := 0, offset := some loc }

mutual
/-- The branch bodies of `DfsSessionWatchCoordinator._convert_to_serializable`
(branch order as in the source: `pd.isna`, timestamp, `.item()`, dict,
sequence, pass-through), WITHOUT the `pd.isna` guard's error behavior on
lists.  The full model of the source function is `haConvertE` below, which
adds that guard; on sequence-free values the two agree (`haConvertE_agree`),
and the states assembly only ever applies the function to scalars and to
dict values that are scalars, so it uses this total function. -/
def haConvert (loc : Int) : Value → Value
  | Value.vNull => Value.vNull
  | Value.vNaN => Value.vNull
  | Value.vTime t => Value.vStr (haTimestampString loc t)
  | Value.vNpInt n => Value.vInt n
  | Value.vNpFloat q => Value.vFloat q
  | Value.vDict xs => Value.vDict (haConvertDict loc xs)
  | Value.vList xs => Value.vList (haConvertList loc xs)
  | Value.vTuple xs => Value.vList (haConvertList loc xs)
  | Value.vStr s => Value.vStr s
  | Value.vInt n => Value.vInt n
  | Value.vFloat q => Value.vFloat q

def haConvertList (loc : Int) : List Value → List Value
  | [] => []
  | v :: vs => haConvert loc v :: haConvertList loc vs

def haConvertDict (loc : Int) : List (String × Value) → List (String × Value)
  | [] => []
  | (k, v) :: vs => (k, haConvert loc v) :: haConvertDict loc vs
end

mutual
/-- The branch bodies of `nesoscan.convert_to_serializable`: identical to
`haConvert` except the timestamp branch is a bare `obj.isoformat()` (offset
and microseconds kept as they are).  As with `haConvert`, the `pd.isna`
guard's error behavior on lists lives in the full model `scanConvertE`. -/
def scanConvert : Value → Value
  | Value.vNull => Value.vNull
  | Value.vNaN => Value.vNull
  | Value.vTime t => Value.vStr (isoformat t)
  | Value.vNpInt n => Value.vInt n
  | Value.vNpFloat q => Value.vFloat q
  | Value.vDict xs => Value.vDict (scanConvertDict xs)
  | Value.vList xs => Value.vList (scanConvertList xs)
  | Value.vTuple xs => Value.vList (scanConvertList xs)
  | Value.vStr s => Value.vStr s
  | Value.vInt n => Value.vInt n
  | Value.vFloat q => Value.vFloat q

def scanConvertList : List Value → List Value
  | [] => []
  | v :: vs => scanConvert v :: scanConvertList vs

def scanConvertDict : List (String × Value) → List (String × Value)
  | [] => []
  | (k, v) :: vs => (k, scanConvert v) :: scanConvertDict vs
end

/-- The elementwise `pd.isna` test applied to one cell of an object array
(`checknull`): true exactly for `None` and `NaN`/`NaT`; a nested container
is not null. -/
def isnaCell : Value → Bool
  | Value.vNull => true
  | Value.vNaN => true
  | _ => false

/-- The numpy error raised when a boolean array of length ≥ 2 is used in an
`if` condition. -/
def ambiguousTruth : String :=
  "ValueError: The truth value of an array with more than one element is ambiguous."

mutual
/-- The FULL model of `_convert_to_serializable`, including the `pd.isna`
guard's behavior on sequences: `pd.isna` on a Python list returns an
elementwise boolean ndarray, so `if pd.isna(obj):` raises ValueError for a
list of length ≥ 2, collapses `[None]`-style single-null lists to `None`,
and lets single non-null (and, under legacy numpy truth of empty arrays,
empty) lists through to the sequence branch.  A tuple is not array-like for
`pd.isna` (it returns a scalar False), so tuples always reach the sequence
branch, which returns a LIST of converted elements. -/
def haConvertE (loc : Int) : Value → Except String Value
  | Value.vNull => .ok Value.vNull
  | Value.vNaN => .ok Value.vNull
  | Value.vTime t => .ok (Value.vStr (haTimestampString loc t))
  | Value.vNpInt n => .ok (Value.vInt n)
  | Value.vNpFloat q => .ok (Value.vFloat q)
  | Value.vDict xs => do
    let ys ← haConvertDictE loc xs
    pure (Value.vDict ys)
  | Value.vList [] => .ok (Value.vList [])
  | Value.vList [x] =>
    if isnaCell x then .ok Value.vNull
    else do
      let y ← haConvertE loc x
      pure (Value.vList [y])
  | Value.vList (_ :: _ :: _) => .error ambiguousTruth
  | Value.vTuple xs => do
    let ys ← haConvertListE loc xs
    pure (Value.vList ys)
  | Value.vStr s => .ok (Value.vStr s)
  | Value.vInt n => .ok (Value.vInt n)
  | Value.vFloat q => .ok (Value.vFloat q)

def haConvertListE (loc : Int) : List Value → Except String (List Value)
  | [] => .ok []
  | v :: vs => do
    let y ← haConvertE loc v
    let ys ← haConvertListE loc vs
    pure (y :: ys)

def haConvertDictE (loc : Int) : List (String × Value) → Except String (List (String × Value))
  | [] => .ok []
  | (k, v) :: vs => do
    let y ← haConvertE loc v
    let ys ← haConvertDictE loc vs
    pure ((k, y) :: ys)
end

mutual
/-- The FULL model of `nesoscan.convert_to_serializable`, with the same
`pd.isna` guard semantics as `haConvertE` and the bare-`isoformat`
timestamp branch. -/
def scanConvertE : Value → Except String Value
  | Value.vNull => .ok Value.vNull
  | Value.vNaN => .ok Value.vNull
  | Value.vTime t => .ok (Value.vStr (isoformat t))
  | Value.vNpInt n => .ok (Value.vInt n)
  | Value.vNpFloat q => .ok (Value.vFloat q)
  | Value.vDict xs => do
    let ys ← scanConvertDictE xs
    pure (Value.vDict ys)
  | Value.vList [] => .ok (Value.vList [])
  | Value.vList [x] =>
    if isnaCell x then .ok Value.vNull
    else do
      let y ← scanConvertE x
      pure (Value.vList [y])
  | Value.vList (_ :: _ :: _) => .error ambiguousTruth
  | Value.vTuple xs => do
    let ys ← scanConvertListE xs
    pure (Value.vList ys)
  | Value.vStr s => .ok (Value.vStr s)
  | Value.vInt n => .ok (Value.vInt n)
  | Value.vFloat q => .ok (Value.vFloat q)

def scanConvertListE : List Value → Except String (List Value)
  | [] => .ok []
  | v :: vs => do
    let y ← scanConvertE v
    let ys ← scanConvertListE vs
    pure (y :: ys)

def scanConvertDictE : List (String × Value) → Except String (List (String × Value))
  | [] => .ok []
  | (k, v) :: vs => do
    let y ← scanConvertE v
    let ys ← scanConvertDictE vs
    pure ((k, y) :: ys)
end

mutual
/-- Sequence-free values: scalars, and mappings whose values are
sequence-free.  On this fragment the `pd.isna` guard never sees a list, so
the full normalizer models agree with the total branch-body functions. -/
def seqFree : Value → Bool
  | Value.vList _ => false
  | Value.vTuple _ => false
  | Value.vDict xs => seqFreeDict xs
  | _ => true

def seqFreeDict : List (String × Value) → Bool
  | [] => true
  | (_, v) :: vs => seqFree v && seqFreeDict vs
end

/-! ## Records

The two datasets' rows, restricted to the columns the analyzer reads.
`PriceVal` models the `Utilisation Price GBP per MWh` column, which may
arrive number-typed or string-typed; `strnum s q` is a numeric string `s`
whose `float(s)` / `astype(float)` coercion is `q`.  Prices are assumed
non-null (the sources' `pd.notna` guards on them are then trivially true).
-/

inductive PriceVal where
  | num (q : ℚ)
  | strnum (s : String) (q : ℚ)
  deriving DecidableEq, Repr

/-- `astype(float)` / `float(...)` coercion of a price field. -/
def PriceVal.toQ : PriceVal → ℚ
  | num q => q
  | strnum _ q => q

/-- The raw column value (before any coercion): a numpy float or a string. -/
def PriceVal.raw : PriceVal → Value
  | num q => Value.vNpFloat q
  | strnum s _ => Value.vStr s

/-- The numeric value of a number-typed price cell (`none` for a
string-typed cell). -/
def PriceVal.numVal : PriceVal → Option ℚ
  | num q => some q
  | strnum _ _ => none

/-- One row of the utilization dataset (`cc36fff5-…`).  `DFS Volume MW` is
integral in every property considered here. -/
structure UtilRecord where
  date : Int
  participant : String
  status : Option String
  price : PriceVal
  volume : Int
  tFrom : String
  tTo : String
  deriving DecidableEq, Repr

/-- One row of the bid-eligibility dataset (`f5605e2b-…`); `mw` is
`Service Requirement MW`, `gprice` is
`Guaranteed Acceptance Price GBP per MWh`, both possibly absent
(`pd.notna` checks at the use sites). -/
structure BidRecord where
  date : Int
  tFrom : String
  tTo : String
  mw : Option Int
  gprice : Option Int
  deriving DecidableEq, Repr

/-! ## Small string helpers -/

/-- Substring test on character lists (`in` / `str.contains`). -/
def containsSub (pat : List Char) : List Char → Bool
  | [] => pat.isEmpty
  | c :: rest => pat.isPrefixOf (c :: rest) || containsSub pat rest

/-- `s.upper()` (character-wise, on the underlying character list). -/
def upperStr (s : String) : String := String.mk (s.data.map Char.toUpper)

/-- `df['Status'].str.upper().str.contains('ACCEPTED', na=False)`:
null statuses are excluded (`na=False`). -/
def statusAccepted : Option String → Bool
  | none => false
  | some s => containsSub "ACCEPTED".data (upperStr s).data

/-- Python `float` applied to the integral volume strings rendered by the
group summarizer (optional minus sign followed by digits). -/
def floatOfIntString (s : String) : ℚ :=
  let digits (cs : List Char) : Nat := cs.foldl (fun a c => a * 10 + (c.toNat - 48)) 0
  match s.data with
  | '-' :: rest => -(digits rest : ℚ)
  | cs => (digits cs : ℚ)

/-! ## Sorting (`sort_values`, modelled as a stable sort) -/

/-- Descending by delivery date (`sort_values('Delivery Date', ascending=False)`). -/
def dateDescRel (a b : UtilRecord) : Prop := b.date ≤ a.date

instance : DecidableRel dateDescRel := fun a b =>
  inferInstanceAs (Decidable (b.date ≤ a.date))

instance : IsTotal UtilRecord dateDescRel := ⟨fun a b => le_total b.date a.date⟩

instance : IsTrans UtilRecord dateDescRel :=
  ⟨fun _ _ _ h1 h2 => le_trans h2 h1⟩

/-- Code-point lexicographic ≤ on character lists: Python's string
comparison, applied to the time-of-day strings. -/
def charListLeB : List Char → List Char → Bool
  | [], _ => true
  | _ :: _, [] => false
  | a :: as, b :: bs =>
    if a.val < b.val then true
    else if b.val < a.val then false
    else charListLeB as bs

/-- Python `<=` on strings. -/
def strLeB (a b : String) : Bool := charListLeB a.data b.data

/-- Ascending lexicographically by (delivery date, start time):
`sort_values(['Delivery Date', 'From'])`. -/
def lexDF {α : Type} (dkey : α → Int) (skey : α → String) (a b : α) : Prop :=
  dkey a < dkey b ∨ (dkey a = dkey b ∧ strLeB (skey a) (skey b) = true)

instance {α : Type} (dkey : α → Int) (skey : α → String) :
    DecidableRel (lexDF dkey skey) := fun _ _ =>
  inferInstanceAs (Decidable (_ ∨ _))

/-! ## Utilization analysis (`DfsSessionWatchCoordinator._check_utilization`) -/

/-- The tracked participant. -/
def octName : String := "OCTOPUS ENERGY LIMITED"

/-- `df[df['Delivery Date'] >= today]` (row order preserved). -/
def futureUtil (today : Int) (df : List UtilRecord) : List UtilRecord :=
  df.filter (fun r => today ≤ r.date)

/-- Lines 119–123: `latest = future_df.iloc[0] if not future_df.empty
else df.iloc[0]` — the first row (in row order) with date ≥ today,
otherwise the first row. -/
def utilLatest (today : Int) (df : List UtilRecord) : Option UtilRecord :=
  match (futureUtil today df).head? with
  | some r => some r
  | none => df.head?

/-- Line 126: `df[df['Registered DFS Participant'] == 'OCTOPUS ENERGY
LIMITED']`, in original row order. -/
def octRecords (df : List UtilRecord) : List UtilRecord :=
  df.filter (fun r => r.participant == octName)

/-- Line 131: `df.sort_values('Delivery Date', ascending=False)`. -/
def utilSortedDesc (df : List UtilRecord) : List UtilRecord :=
  List.insertionSort dateDescRel df

/-- Line 134: `df['Delivery Date'].iloc[0]` of the descending-sorted frame. -/
def mostRecentDate (df : List UtilRecord) : Option Int :=
  ((utilSortedDesc df).head?).map UtilRecord.date

/-- Lines 139–141: all rows of the descending-sorted frame whose date is the
most recent date. -/
def recentBids (df : List UtilRecord) : List UtilRecord :=
  match mostRecentDate df with
  | none => []
  | some d => (utilSortedDesc df).filter (fun r => r.date == d)

/-- Line 143: the accepted rows among `recentBids`. -/
def acceptedBids (df : List UtilRecord) : List UtilRecord :=
  (recentBids df).filter (fun r => statusAccepted r.status)

/-- `Series.astype(float).idxmax()` followed by `.loc`: the first row
attaining the maximum coerced price. -/
def argmaxPrice : List UtilRecord → Option UtilRecord
  | [] => none
  | r :: rs =>
    match argmaxPrice rs with
    | none => some r
    | some b => if r.price.toQ < b.price.toQ then some b else some r

/-- Lines 137–147: the highest accepted bid for the most recent date
(`None` when there is none). -/
def highestAccepted (df : List UtilRecord) : Option UtilRecord :=
  argmaxPrice (acceptedBids df)

/-- Line 166: `octopus_latest.get('Status', 'UNKNOWN') if octopus_latest is
not None else 'UNKNOWN'`; a present-but-null status yields `None`. -/
def octStatus (df : List UtilRecord) : Value :=
  match (octRecords df).head? with
  | none => Value.vStr "UNKNOWN"
  | some r =>
    match r.status with
    | some s => Value.vStr s
    | none => Value.vNull

/-- Line 176: `df['Delivery Date'].max()`. -/
def deliveryDateMax (df : List UtilRecord) : Option Int :=
  (df.map UtilRecord.date).max?

/-- `pd.to_datetime` of a date: midnight of that day, timezone-naive. -/
def dateValue (d : Int) : PyDateTime :=
  { wallSec := d * 86400, micro := 0, offset := none }

/-! ## Multi-record group summarization (lines 227–307) -/

/-- Line 237: the participant's rows sorted by (delivery date, start time). -/
def octSorted (df : List UtilRecord) : List UtilRecord :=
  List.insertionSort (lexDF UtilRecord.date UtilRecord.tFrom) (octRecords df)

/-- Lines 243–245: `for i in range(0, len(rows), 2): row1 = rows[i];
row2 = rows[i+1] if i+1 < len(rows) else None`. -/
def pairGroups {α : Type} : List α → List (α × Option α)
  | [] => []
  | [a] => [(a, none)]
  | a :: b :: rest => (a, some b) :: pairGroups rest

/-- Lines 258 / 262: the combined time-window string of one pair
(`_convert_to_serializable` on the time strings is the identity). -/
def windowStr : UtilRecord × Option UtilRecord → String
  | (r1, some r2) => r1.tFrom ++ " - " ++ r1.tTo ++ ", " ++ r2.tFrom ++ " - " ++ r2.tTo
  | (r1, none) => r1.tFrom ++ " - " ++ r1.tTo

/-- Lines 259 / 263: the combined volume string of one pair. -/
def volStr : UtilRecord × Option UtilRecord → String
  | (r1, some r2) => toString r1.volume ++ ", " ++ toString r2.volume
  | (r1, none) => toString r1.volume

def timeWindows (df : List UtilRecord) : List String :=
  (pairGroups (octSorted df)).map windowStr

def volumeStrings (df : List UtilRecord) : List String :=
  (pairGroups (octSorted df)).map volStr

/-- True when every price in the participant's rows is number-typed, i.e.
the price column has float dtype rather than object dtype. -/
def octPricesNumeric (df : List UtilRecord) : Bool :=
  (octRecords df).all (fun r => (r.price.numVal).isSome)

/-- Line 266: `octopus_df['Utilisation Price GBP per MWh'].mean()` over ALL
of the participant's rows (every delivery date), with NO `astype(float)`
coercion.  On a numeric (float-dtype) column it is the arithmetic mean of
the numeric cells — the only region on which the assembly below is
reached: any string-typed price makes the column object-dtype, where
`.mean()` never computes an elementwise mean (pandas ≥ 2 raises TypeError,
routed through the cycle's error handler in `checkUtilization`; pandas < 2
would instead float the concatenation of the strings). -/
def avgPrice (df : List UtilRecord) : ℚ :=
  let qs := (octRecords df).filterMap (fun r => r.price.numVal)
  qs.sum / (qs.length : ℚ)

/-! ## The published state mapping -/

structure SensorState where
  state : Value
  attributes : List (String × Value)

abbrev StatesMap := List (String × SensorState)

/-- Lines 269–275. -/
def timeWindowState (df : List UtilRecord) : SensorState :=
  if (octRecords df).isEmpty then { state := Value.vNull, attributes := [] }
  else
    { state := Value.vStr (String.intercalate "; " (timeWindows df)),
      attributes :=
        [("individual_windows",
          Value.vList ((timeWindows df).map (fun w =>
            Value.vList ((w.splitOn ", ").map Value.vStr))))] }

/-- Lines 277–283 (`float(v.strip()) for v in volume.split(",")`). -/
def volumeState (df : List UtilRecord) : SensorState :=
  if (octRecords df).isEmpty then { state := Value.vNull, attributes := [] }
  else
    { state := Value.vStr (String.intercalate "; " (volumeStrings df)),
      attributes :=
        [("individual_volumes",
          Value.vList ((volumeStrings df).map (fun v =>
            Value.vList ((v.splitOn ",").map (fun p =>
              Value.vFloat (floatOfIntString p.trim))))))] }

/-- Lines 285–291: state is the serialized mean, attributes the serialized
individual prices of ALL the participant's rows. -/
def priceState (loc : Int) (df : List UtilRecord) : SensorState :=
  if (octRecords df).isEmpty then { state := Value.vNull, attributes := [] }
  else
    { state := haConvert loc (Value.vNpFloat (avgPrice df)),
      attributes :=
        [("individual_prices",
          Value.vList ((octRecords df).map (fun r => haConvert loc r.price.raw)))] }

/-- Lines 211–224: the highest-accepted key — a null state and empty
attributes when no accepted bid exists, the raw (unserialized) price
otherwise. -/
def highestAcceptedState (loc : Int) (nowIso : String) (df : List UtilRecord) :
    SensorState :=
  match highestAccepted df with
  | none => { state := Value.vNull, attributes := [] }
  | some r =>
    { state := r.price.raw,
      attributes :=
        [("delivery_date", haConvert loc (Value.vTime (dateValue r.date))),
         ("time_from", haConvert loc (Value.vStr r.tFrom)),
         ("time_to", haConvert loc (Value.vStr r.tTo)),
         ("volume", haConvert loc (Value.vInt r.volume)),
         ("last_update", Value.vStr nowIso)] }

/-- Lines 201–210: the delivery-date key.  `delivery_date` is
`df['Delivery Date'].max()`; the `time_from`/`time_to` attributes come from
the `latest` record of lines 119–123, `volume` from the participant's first
row.  The `Option.getD`/`match` defaults are unreachable: the assembly only
runs on a non-empty frame. -/
def deliveryDateState (today loc : Int) (nowIso : String) (df : List UtilRecord) :
    SensorState :=
  let mrd := (deliveryDateMax df).getD 0
  { state := haConvert loc (Value.vTime (dateValue mrd)),
    attributes :=
      [("raw_date", Value.vTime (dateValue mrd)),
       ("time_from",
         match utilLatest today df with
         | some l => haConvert loc (Value.vStr l.tFrom)
         | none => Value.vNull),
       ("time_to",
         match utilLatest today df with
         | some l => haConvert loc (Value.vStr l.tTo)
         | none => Value.vNull),
       ("volume",
         match (octRecords df).head? with
         | some r => haConvert loc (Value.vInt r.volume)
         | none => Value.vNull),
       ("last_update", Value.vStr nowIso)] }

/-- Lines 194–200. -/
def utilizationStatusState (nowIso : String) (df : List UtilRecord) : SensorState :=
  { state := octStatus df, attributes := [("last_checked", Value.vStr nowIso)] }

/-- Lines 194–307: the six utilization-side keys, in insertion order
(`states` literal then `states.update`).  `nowIso` stands for the
`datetime.now().isoformat()` strings. -/
def utilizationStates (today loc : Int) (nowIso : String) (df : List UtilRecord) :
    StatesMap :=
  [("octopus_dfs_session_utilization", utilizationStatusState nowIso df),
   ("octopus_dfs_session_delivery_date", deliveryDateState today loc nowIso df),
   ("octopus_dfs_session_highest_accepted", highestAcceptedState loc nowIso df),
   ("octopus_dfs_session_time_window", timeWindowState df),
   ("octopus_dfs_session_price", priceState loc df),
   ("octopus_dfs_session_volume", volumeState df)]

/-! ## The query paths -/

/-- An HTTP response from the datastore API, reduced to what the code
inspects: the status code, the JSON body's `success` flag, whether the body
has a `result` field, and the decoded records. -/
structure HttpResp where
  status : Nat
  success : Bool
  hasResult : Bool
  records : List UtilRecord

/-- The fetch phase of `_check_utilization` (lines 85–103): HTTP 409 yields
an empty record set without raising (lines 91–93); `raise_for_status`
raises on any other non-2xx status; an unsuccessful JSON body yields an
empty record set (lines 98–100); a missing `result` field raises
(`json_response["result"]`). -/
def fetchUtilRecords (resp : HttpResp) : Except String (List UtilRecord) :=
  if resp.status == 409 then .ok []
  else if 400 ≤ resp.status then .error "HTTPError"
  else if !resp.success then .ok []
  else if !resp.hasResult then .error "KeyError: result"
  else .ok resp.records

/-- Lines 311–324: the `except` handler publishes a single error-status key. -/
def utilErrorStates (nowIso msg : String) : StatesMap :=
  [("octopus_dfs_session_utilization",
    { state := Value.vStr "error",
      attributes := [("last_checked", Value.vStr nowIso),
                     ("error", Value.vStr msg)] })]

/-- `_check_utilization` end to end: a raise inside the `try` lands in the
error handler; an empty frame returns `{}` (line 105–106); a non-empty
participant frame whose price column is not numeric makes line 266's
uncoerced `.mean()` raise TypeError (pandas ≥ 2) into the same handler;
otherwise the analysis completes. -/
def checkUtilization (today loc : Int) (nowIso : String) (resp : HttpResp) :
    StatesMap :=
  match fetchUtilRecords resp with
  | .error e => utilErrorStates nowIso e
  | .ok [] => []
  | .ok df =>
    if !(octRecords df).isEmpty && !octPricesNumeric df then
      utilErrorStates nowIso "TypeError: could not convert string to float"
    else utilizationStates today loc nowIso df

/-! ## Bid-eligibility analysis (`_check_octopus_bids`, `_format_time_slots`) -/

/-- Line 393: `df.sort_values(['Delivery Date', 'From'])`. -/
def bidsSorted (df : List BidRecord) : List BidRecord :=
  List.insertionSort (lexDF BidRecord.date BidRecord.tFrom) df

/-- Lines 397–404: the date `_format_time_slots` anchors on — the minimum
of the dates ≥ today when any exist, otherwise the maximum date. -/
def tsResolvedDate (today : Int) (df : List BidRecord) : Option Int :=
  let sorted := bidsSorted df
  let future := sorted.filter (fun r => today ≤ r.date)
  if future.isEmpty then (sorted.map BidRecord.date).max?
  else (future.map BidRecord.date).min?

/-- Lines 410–416: one bullet line per row; capacity and guaranteed price
are appended only when present (`pd.notna`). -/
def slotLine (r : BidRecord) : String :=
  let base := "• " ++ r.tFrom ++ " - " ++ r.tTo
  let base :=
    match r.mw with
    | some m => base ++ " (" ++ toString m ++ " MW)"
    | none => base
  match r.gprice with
  | some p => base ++ " with a guaranteed acceptance price of £" ++ toString p ++ "/MWh"
  | none => base

/-- `str(pd.Timestamp)` of a midnight timestamp, as interpolated into the
date header. -/
def pandasTsStr (d : Int) : String := dateStr d ++ " 00:00:00"

/-- `_format_time_slots` (lines 387–418): a date header plus one line per
row of the selected date, joined by newlines. -/
def formatTimeSlots (today : Int) (df : List BidRecord) : String :=
  if df.isEmpty then "No entries found"
  else
    match tsResolvedDate today df with
    | none => "No entries found"   -- unreachable: `df` is non-empty here
    | some d =>
      let recent := (bidsSorted df).filter (fun r => r.date == d)
      String.intercalate "\n"
        (("\n**" ++ pandasTsStr d ++ "**") :: recent.map slotLine)

/-- A bid row as the serialized dict of its modelled columns
(`{k: _convert_to_serializable(v) for k, v in record.items()}`). -/
def bidRecordDict (loc : Int) (r : BidRecord) : Value :=
  Value.vDict
    [("Delivery Date", haConvert loc (Value.vTime (dateValue r.date))),
     ("From", haConvert loc (Value.vStr r.tFrom)),
     ("To", haConvert loc (Value.vStr r.tTo)),
     ("Service Requirement MW",
       match r.mw with
       | some m => haConvert loc (Value.vNpInt m)
       | none => Value.vNull),
     ("Guaranteed Acceptance Price GBP per MWh",
       match r.gprice with
       | some p => haConvert loc (Value.vNpInt p)
       | none => Value.vNull)]

/-- An HTTP response of the bid-eligibility query. -/
structure BidsResp where
  status : Nat
  success : Bool
  hasResult : Bool
  records : List BidRecord

/-- `_check_octopus_bids` (lines 326–385): 409, an unsuccessful body, a
missing `result` field, and the exception handler all yield `{}`; a
successful fetch publishes the single details key, whose `raw_data`
attribute holds the rows of the maximum delivery date. -/
def checkOctopusBids (today loc : Int) (resp : BidsResp) : StatesMap :=
  if resp.status == 409 then []
  else if 400 ≤ resp.status then []        -- raise_for_status → except → {}
  else if !resp.success then []
  else if !resp.hasResult then []
  else
    let df := resp.records
    [("octopus_dfs_session_details",
      { state :=
          if df.isEmpty then Value.vStr "No entries found"
          else Value.vStr (formatTimeSlots today df),
        attributes :=
          [("raw_data",
            Value.vList
              ((df.filter (fun r =>
                  ((df.map BidRecord.date).max?).any (fun m => r.date == m))).map
                (bidRecordDict loc)))] })]

/-! ## Cycle merge (`_async_update_data`, lines 65–74) -/

/-- `{**bids, **util}`: all keys of both maps, the utilization side winning
on a collision. -/
def mergeStates (bids util : StatesMap) : StatesMap :=
  bids.filter (fun p => (util.find? (fun q => q.1 == p.1)).isNone) ++ util

/-- Key lookup in a published mapping. -/
def lookupState (m : StatesMap) (k : String) : Option SensorState :=
  (m.find? (fun p => p.1 == k)).map (fun p => p.2)

/-- The value the coordinator hands to the sensor layer each cycle: the
fresh merge of the two analyses (no carry-over from previous cycles). -/
def asyncUpdateData (bids util : StatesMap) : StatesMap :=
  mergeStates bids util

/-! ## Definitions taken from the specification's words

These follow the spec text (not the source) and exist only to be compared
against the source-derived definitions above. -/

/-- The spec's resolved-date rule: "prefer the earliest date ≥ today among
available dates; if none is ≥ today, fall back to the maximum (most recent
past) date". -/
def specResolvedDate (today : Int) (dates : List Int) : Option Int :=
  match (dates.filter (fun d => today ≤ d)).min? with
  | some d => some d
  | none => dates.max?

/-- The spec's accepted-bid selection: filter to the resolved date, then to
accepted rows, then take the stable maximum by price. -/
def specHighestAccepted (today : Int) (df : List UtilRecord) : Option UtilRecord :=
  match specResolvedDate today (df.map UtilRecord.date) with
  | none => none
  | some d =>
    argmaxPrice ((df.filter (fun r => r.date == d)).filter
      (fun r => statusAccepted r.status))

/-- The spec's pairing rule: the participant's records ON the resolved date,
sorted by start time, paired consecutively. -/
def specPairWindows (today : Int) (df : List UtilRecord) : List String :=
  match specResolvedDate today (df.map UtilRecord.date) with
  | none => []
  | some d =>
    (pairGroups (List.insertionSort (lexDF UtilRecord.date UtilRecord.tFrom)
      ((octRecords df).filter (fun r => r.date == d)))).map windowStr

/-- The spec's price rule: the mean of the participant's prices restricted
to the resolved date. -/
def specAvgPrice (today : Int) (df : List UtilRecord) : Option ℚ :=
  match specResolvedDate today (df.map UtilRecord.date) with
  | none => none
  | some d =>
    let ps := ((octRecords df).filter (fun r => r.date == d)).map
      (fun r => r.price.toQ)
    if ps.isEmpty then none else some (ps.sum / (ps.length : ℚ))

/-- The spec's time-slot listing: contiguous rows of the resolved date
sharing identical (capacity, guaranteed price) become one period from the
first row's start to the last contiguous row's end. -/
def specSlotGroups : List BidRecord → List (List BidRecord)
  | [] => []
  | r :: rest =>
    match specSlotGroups rest with
    | [] => [[r]]
    | (g :: gs) =>
      match g with
      | [] => [r] :: gs
      | (s :: _) =>
        if r.mw == s.mw && r.gprice == s.gprice then (r :: g) :: gs
        else [r] :: (g :: gs)

/-- One period line of the spec's listing (fields omitted when absent). -/
def specPeriodLine (g : List BidRecord) : String :=
  match g.head?, g.getLast? with
  | some first, some last =>
    let base := "• " ++ first.tFrom ++ " - " ++ last.tTo
    let base :=
      match first.mw with
      | some m => base ++ " (" ++ toString m ++ " MW)"
      | none => base
    (match first.gprice with
     | some p => base ++ " with a guaranteed acceptance price of £" ++ toString p ++ "/MWh"
     | none => base)
  | _, _ => ""

/-- The spec's eligibility listing for the resolved date. -/
def specFormatTimeSlots (today : Int) (df : List BidRecord) : String :=
  if df.isEmpty then "No entries found"
  else
    match tsResolvedDate today df with
    | none => "No entries found"
    | some d =>
      let recent := (bidsSorted df).filter (fun r => r.date == d)
      String.intercalate "\n"
        (("\n**" ++ pandasTsStr d ++ "**") :: (specSlotGroups recent).map specPeriodLine)

/-! ## Helper lemmas -/

instance : Std.Antisymm ((· : Int) ≤ ·) := ⟨fun h1 h2 => le_antisymm h1 h2⟩

theorem intMin?_eq_some_iff {l : List Int} {a : Int} :
    l.min? = some a ↔ a ∈ l ∧ ∀ b ∈ l, a ≤ b := by
  simpa using @List.min?_eq_some_iff Int a _ _ _ (fun x => le_refl x)
    (fun x y => min_choice x y) (fun x y z => le_min_iff) l

theorem intMax?_eq_some_iff {l : List Int} {a : Int} :
    l.max? = some a ↔ a ∈ l ∧ ∀ b ∈ l, b ≤ a := by
  simpa using @List.max?_eq_some_iff Int a _ _ _ (fun x => le_refl x)
    (fun x y => max_choice x y) (fun x y z => max_le_iff) l

theorem min?_of_perm {l l' : List Int} (h : l.Perm l') : l.min? = l'.min? := by
  cases hl : l.min? with
  | none =>
    rw [List.min?_eq_none_iff] at hl
    subst hl
    rw [List.min?_eq_none_iff.mpr h.symm.eq_nil]
  | some a =>
    rw [intMin?_eq_some_iff] at hl
    exact (intMin?_eq_some_iff.mpr
      ⟨h.mem_iff.mp hl.1, fun b hb => hl.2 b (h.mem_iff.mpr hb)⟩).symm

theorem max?_of_perm {l l' : List Int} (h : l.Perm l') : l.max? = l'.max? := by
  cases hl : l.max? with
  | none =>
    rw [List.max?_eq_none_iff] at hl
    subst hl
    rw [List.max?_eq_none_iff.mpr h.symm.eq_nil]
  | some a =>
    rw [intMax?_eq_some_iff] at hl
    exact (intMax?_eq_some_iff.mpr
      ⟨h.mem_iff.mp hl.1, fun b hb => hl.2 b (h.mem_iff.mpr hb)⟩).symm

theorem argmaxPrice_eq_none {l : List UtilRecord} :
    argmaxPrice l = none ↔ l = [] := by
  cases l with
  | nil => simp [argmaxPrice]
  | cons r rs =>
    simp only [argmaxPrice]
    constructor
    · intro h
      exfalso
      split at h
      · exact absurd h (by simp)
      · split at h <;> exact absurd h (by simp)
    · intro h
      exact absurd h (by simp)

/-- The first-max characterization of `argmaxPrice` (`idxmax`): the chosen
row is in the list, every earlier row has a strictly smaller coerced price,
and no row has a larger one. -/
theorem argmaxPrice_spec :
    ∀ {l : List UtilRecord} {r : UtilRecord}, argmaxPrice l = some r →
      (∃ l1 l2, l = l1 ++ r :: l2 ∧ ∀ x ∈ l1, x.price.toQ < r.price.toQ) ∧
      ∀ x ∈ l, x.price.toQ ≤ r.price.toQ := by
  intro l
  induction l with
  | nil => intro r h; exact absurd h (by simp [argmaxPrice])
  | cons a tl ih =>
    intro r h
    simp only [argmaxPrice] at h
    split at h
    · rename_i htl
      have har : a = r := by simpa using h
      subst har
      have : tl = [] := argmaxPrice_eq_none.mp htl
      subst this
      exact ⟨⟨[], [], rfl, by simp⟩, by simp⟩
    · rename_i b htl
      obtain ⟨⟨t1, t2, hsplit, hlt⟩, hle⟩ := ih htl
      split at h
      · rename_i hc
        have : b = r := by simpa using h
        subst this
        refine ⟨⟨a :: t1, t2, by simp [hsplit], ?_⟩, ?_⟩
        · intro x hx
          rcases List.mem_cons.mp hx with hx | hx
          · exact hx ▸ hc
          · exact hlt x hx
        · intro x hx
          rcases List.mem_cons.mp hx with hx | hx
          · exact hx ▸ le_of_lt hc
          · exact hle x hx
      · rename_i hc
        have : a = r := by simpa using h
        subst this
        refine ⟨⟨[], tl, rfl, by simp⟩, ?_⟩
        intro x hx
        rcases List.mem_cons.mp hx with hx | hx
        · exact hx ▸ le_refl _
        · exact le_trans (hle x hx) (not_lt.mp hc)

/-- The head of the descending-sorted frame carries the maximum date. -/
theorem mostRecentDate_is_max {df : List UtilRecord} {d : Int}
    (h : mostRecentDate df = some d) :
    (∃ r ∈ df, r.date = d) ∧ ∀ r ∈ df, r.date ≤ d := by
  unfold mostRecentDate at h
  cases hs : (utilSortedDesc df).head? with
  | none => rw [hs] at h; exact absurd h (by simp)
  | some r0 =>
    rw [hs] at h
    have hd : r0.date = d := by simpa using h
    obtain ⟨ys, hys⟩ := List.head?_eq_some_iff.mp hs
    have hperm : (utilSortedDesc df).Perm df := List.perm_insertionSort _ df
    have hsorted : (utilSortedDesc df).Sorted dateDescRel :=
      List.sorted_insertionSort dateDescRel df
    constructor
    · exact ⟨r0, hperm.mem_iff.mp (by rw [hys]; exact List.mem_cons_self r0 ys), hd⟩
    · intro r hr
      have : r ∈ utilSortedDesc df := hperm.mem_iff.mpr hr
      rw [hys] at this
      rcases List.mem_cons.mp this with h1 | h1
      · exact h1 ▸ hd ▸ le_refl _
      · have := (List.pairwise_cons.mp (hys ▸ hsorted)).1 r h1
        exact hd ▸ this

/-- `head?` of a `filter`: the result is the first element satisfying the
predicate. -/
theorem head?_filter_eq_some {α : Type} {p : α → Bool} {l : List α} {r : α}
    (h : (l.filter p).head? = some r) :
    ∃ l1 l2, l = l1 ++ r :: l2 ∧ p r = true ∧ ∀ x ∈ l1, p x = false := by
  induction l with
  | nil => exact absurd h (by simp)
  | cons a tl ih =>
    by_cases hp : p a
    · rw [List.filter_cons_of_pos hp] at h
      have : a = r := by simpa using h
      exact ⟨[], tl, by simp [this], this ▸ hp, by simp⟩
    · rw [List.filter_cons_of_neg hp] at h
      obtain ⟨l1, l2, h1, h2, h3⟩ := ih h
      refine ⟨a :: l1, l2, by simp [h1], h2, ?_⟩
      intro x hx
      rcases List.mem_cons.mp hx with hx | hx
      · exact hx ▸ (by simpa using hp)
      · exact h3 x hx

/-- `find?` by key skips over a key-based filter that only removes other
keys. -/
theorem find?_filter_eq {α : Type} (l : List α) (p f : α → Bool)
    (h : ∀ x, p x = true → f x = true) :
    (l.filter f).find? p = l.find? p := by
  induction l with
  | nil => rfl
  | cons a tl ih =>
    by_cases hp : p a
    · rw [List.filter_cons_of_pos (h a hp), List.find?_cons_of_pos _ hp,
        List.find?_cons_of_pos _ hp]
    · by_cases hf : f a
      · rw [List.filter_cons_of_pos hf, List.find?_cons_of_neg _ hp,
          List.find?_cons_of_neg _ hp, ih]
      · rw [List.filter_cons_of_neg hf, List.find?_cons_of_neg _ hp, ih]

/-- `find?` by key finds nothing in a list whose entries with that key were
all filtered out. -/
theorem find?_filter_none (l : StatesMap) (k : String) (f : String × SensorState → Bool)
    (h : ∀ p : String × SensorState, p.1 = k → f p = false) :
    (l.filter f).find? (fun p => p.1 == k) = none := by
  rw [List.find?_eq_none]
  intro x hx hk
  have hf := (List.mem_filter.mp hx).2
  rw [h x (by simpa using hk)] at hf
  exact absurd hf (by simp)

/-- The one date-rule equality that does hold: `_format_time_slots` resolves
exactly the spec's "earliest ≥ today, else maximum" date. -/
theorem tsResolvedDate_eq_spec (today : Int) (df : List BidRecord) :
    tsResolvedDate today df = specResolvedDate today (df.map BidRecord.date) := by
  unfold tsResolvedDate specResolvedDate
  have hperm : (bidsSorted df).Perm df := List.perm_insertionSort _ df
  have hfperm : ((bidsSorted df).filter (fun r => today ≤ r.date)).Perm
      (df.filter (fun r => today ≤ r.date)) := hperm.filter _
  have hmapeq : (df.filter (fun r => today ≤ r.date)).map BidRecord.date =
      (df.map BidRecord.date).filter (fun d => today ≤ d) := by
    rw [List.filter_map]
    rfl
  have hmin : (((bidsSorted df).filter (fun r => today ≤ r.date)).map
      BidRecord.date).min? = ((df.map BidRecord.date).filter (fun d => today ≤ d)).min? := by
    rw [← hmapeq]
    exact min?_of_perm (hfperm.map _)
  have hmax : ((bidsSorted df).map BidRecord.date).max? =
      (df.map BidRecord.date).max? := max?_of_perm (hperm.map _)
  by_cases hempty : ((bidsSorted df).filter (fun r => today ≤ r.date)).isEmpty
  · rw [if_pos hempty]
    have hfe : (bidsSorted df).filter (fun r => today ≤ r.date) = [] :=
      List.isEmpty_iff.mp hempty
    have hdfe : df.filter (fun r => today ≤ r.date) = [] :=
      List.Perm.eq_nil (hfe ▸ hfperm.symm)
    have hqe : (df.map BidRecord.date).filter (fun d => today ≤ d) = [] := by
      rw [← hmapeq, hdfe]
      rfl
    rw [hqe]
    simp [hmax]
  · rw [if_neg hempty]
    have hne : (df.map BidRecord.date).filter (fun d => today ≤ d) ≠ [] := by
      rw [← hmapeq]
      intro hc0
      have hdf : df.filter (fun r => today ≤ r.date) = [] := by
        cases hd : df.filter (fun r => today ≤ r.date) with
        | nil => rfl
        | cons x xs => rw [hd] at hc0; exact absurd hc0 (by simp)
      have hse : (bidsSorted df).filter (fun r => today ≤ r.date) = [] :=
        List.Perm.eq_nil (hdf ▸ hfperm)
      rw [hse] at hempty
      exact hempty rfl
    cases hm : ((df.map BidRecord.date).filter (fun d => today ≤ d)).min? with
    | none => exact absurd (List.min?_eq_none_iff.mp hm) hne
    | some a => rw [hmin, hm]

mutual
theorem haConvert_idem (loc : Int) : ∀ v, haConvert loc (haConvert loc v) = haConvert loc v
  | Value.vNull => by simp [haConvert]
  | Value.vNaN => by simp [haConvert]
  | Value.vTime _ => by simp [haConvert]
  | Value.vNpInt _ => by simp [haConvert]
  | Value.vNpFloat _ => by simp [haConvert]
  | Value.vStr _ => by simp [haConvert]
  | Value.vInt _ => by simp [haConvert]
  | Value.vFloat _ => by simp [haConvert]
  | Value.vList xs => by
    simp only [haConvert]
    rw [haConvertList_idem loc xs]
  | Value.vTuple xs => by
    simp only [haConvert]
    rw [haConvertList_idem loc xs]
  | Value.vDict xs => by
    simp only [haConvert]
    rw [haConvertDict_idem loc xs]

theorem haConvertList_idem (loc : Int) :
    ∀ xs, haConvertList loc (haConvertList loc xs) = haConvertList loc xs
  | [] => by simp [haConvertList]
  | v :: vs => by
    simp only [haConvertList]
    rw [haConvert_idem loc v, haConvertList_idem loc vs]

theorem haConvertDict_idem (loc : Int) :
    ∀ xs, haConvertDict loc (haConvertDict loc xs) = haConvertDict loc xs
  | [] => by simp [haConvertDict]
  | (k, v) :: vs => by
    simp only [haConvertDict]
    rw [haConvert_idem loc v, haConvertDict_idem loc vs]
end

mutual
theorem scanConvert_idem : ∀ v, scanConvert (scanConvert v) = scanConvert v
  | Value.vNull => by simp [scanConvert]
  | Value.vNaN => by simp [scanConvert]
  | Value.vTime _ => by simp [scanConvert]
  | Value.vNpInt _ => by simp [scanConvert]
  | Value.vNpFloat _ => by simp [scanConvert]
  | Value.vStr _ => by simp [scanConvert]
  | Value.vInt _ => by simp [scanConvert]
  | Value.vFloat _ => by simp [scanConvert]
  | Value.vList xs => by
    simp only [scanConvert]
    rw [scanConvertList_idem xs]
  | Value.vTuple xs => by
    simp only [scanConvert]
    rw [scanConvertList_idem xs]
  | Value.vDict xs => by
    simp only [scanConvert]
    rw [scanConvertDict_idem xs]

theorem scanConvertList_idem :
    ∀ xs, scanConvertList (scanConvertList xs) = scanConvertList xs
  | [] => by simp [scanConvertList]
  | v :: vs => by
    simp only [scanConvertList]
    rw [scanConvert_idem v, scanConvertList_idem vs]

theorem scanConvertDict_idem :
    ∀ xs, scanConvertDict (scanConvertDict xs) = scanConvertDict xs
  | [] => by simp [scanConvertDict]
  | (k, v) :: vs => by
    simp only [scanConvertDict]
    rw [scanConvert_idem v, scanConvertDict_idem vs]
end

mutual
theorem haConvertE_agree (loc : Int) :
    ∀ v, seqFree v = true → haConvertE loc v = Except.ok (haConvert loc v)
  | Value.vNull, _ => by simp [haConvertE, haConvert]
  | Value.vNaN, _ => by simp [haConvertE, haConvert]
  | Value.vTime _, _ => by simp [haConvertE, haConvert]
  | Value.vNpInt _, _ => by simp [haConvertE, haConvert]
  | Value.vNpFloat _, _ => by simp [haConvertE, haConvert]
  | Value.vStr _, _ => by simp [haConvertE, haConvert]
  | Value.vInt _, _ => by simp [haConvertE, haConvert]
  | Value.vFloat _, _ => by simp [haConvertE, haConvert]
  | Value.vList _, h => by simp [seqFree] at h
  | Value.vTuple _, h => by simp [seqFree] at h
  | Value.vDict xs, h => by
    have h2 : seqFreeDict xs = true := by simpa [seqFree] using h
    simp only [haConvertE, haConvert]
    rw [haConvertDictE_agree loc xs h2]
    rfl

theorem haConvertDictE_agree (loc : Int) :
    ∀ xs, seqFreeDict xs = true → haConvertDictE loc xs = Except.ok (haConvertDict loc xs)
  | [], _ => by simp [haConvertDictE, haConvertDict]
  | (k, v) :: vs, h => by
    have h12 : seqFree v = true ∧ seqFreeDict vs = true := by
      simpa [seqFreeDict, Bool.and_eq_true] using h
    simp only [haConvertDictE, haConvertDict]
    rw [haConvertE_agree loc v h12.1, haConvertDictE_agree loc vs h12.2]
    rfl
end

mutual
theorem scanConvertE_agree :
    ∀ v, seqFree v = true → scanConvertE v = Except.ok (scanConvert v)
  | Value.vNull, _ => by simp [scanConvertE, scanConvert]
  | Value.vNaN, _ => by simp [scanConvertE, scanConvert]
  | Value.vTime _, _ => by simp [scanConvertE, scanConvert]
  | Value.vNpInt _, _ => by simp [scanConvertE, scanConvert]
  | Value.vNpFloat _, _ => by simp [scanConvertE, scanConvert]
  | Value.vStr _, _ => by simp [scanConvertE, scanConvert]
  | Value.vInt _, _ => by simp [scanConvertE, scanConvert]
  | Value.vFloat _, _ => by simp [scanConvertE, scanConvert]
  | Value.vList _, h => by simp [seqFree] at h
  | Value.vTuple _, h => by simp [seqFree] at h
  | Value.vDict xs, h => by
    have h2 : seqFreeDict xs = true := by simpa [seqFree] using h
    simp only [scanConvertE, scanConvert]
    rw [scanConvertDictE_agree xs h2]
    rfl

theorem scanConvertDictE_agree :
    ∀ xs, seqFreeDict xs = true → scanConvertDictE xs = Except.ok (scanConvertDict xs)
  | [], _ => by simp [scanConvertDictE, scanConvertDict]
  | (k, v) :: vs, h => by
    have h12 : seqFree v = true ∧ seqFreeDict vs = true := by
      simpa [seqFreeDict, Bool.and_eq_true] using h
    simp only [scanConvertDictE, scanConvertDict]
    rw [scanConvertE_agree v h12.1, scanConvertDictE_agree vs h12.2]
    rfl
end

mutual
theorem seqFree_haConvert (loc : Int) :
    ∀ v, seqFree v = true → seqFree (haConvert loc v) = true
  | Value.vNull, _ => by simp [haConvert, seqFree]
  | Value.vNaN, _ => by simp [haConvert, seqFree]
  | Value.vTime _, _ => by simp [haConvert, seqFree]
  | Value.vNpInt _, _ => by simp [haConvert, seqFree]
  | Value.vNpFloat _, _ => by simp [haConvert, seqFree]
  | Value.vStr _, _ => by simp [haConvert, seqFree]
  | Value.vInt _, _ => by simp [haConvert, seqFree]
  | Value.vFloat _, _ => by simp [haConvert, seqFree]
  | Value.vList _, h => by simp [seqFree] at h
  | Value.vTuple _, h => by simp [seqFree] at h
  | Value.vDict xs, h => by
    have h2 : seqFreeDict xs = true := by simpa [seqFree] using h
    simp only [haConvert, seqFree]
    exact seqFreeDict_haConvertDict loc xs h2

theorem seqFreeDict_haConvertDict (loc : Int) :
    ∀ xs, seqFreeDict xs = true → seqFreeDict (haConvertDict loc xs) = true
  | [], _ => by simp [haConvertDict, seqFreeDict]
  | (k, v) :: vs, h => by
    have h12 : seqFree v = true ∧ seqFreeDict vs = true := by
      simpa [seqFreeDict, Bool.and_eq_true] using h
    simp only [haConvertDict, seqFreeDict, Bool.and_eq_true]
    exact ⟨seqFree_haConvert loc v h12.1, seqFreeDict_haConvertDict loc vs h12.2⟩
end

mutual
theorem seqFree_scanConvert :
    ∀ v, seqFree v = true → seqFree (scanConvert v) = true
  | Value.vNull, _ => by simp [scanConvert, seqFree]
  | Value.vNaN, _ => by simp [scanConvert, seqFree]
  | Value.vTime _, _ => by simp [scanConvert, seqFree]
  | Value.vNpInt _, _ => by simp [scanConvert, seqFree]
  | Value.vNpFloat _, _ => by simp [scanConvert, seqFree]
  | Value.vStr _, _ => by simp [scanConvert, seqFree]
  | Value.vInt _, _ => by simp [scanConvert, seqFree]
  | Value.vFloat _, _ => by simp [scanConvert, seqFree]
  | Value.vList _, h => by simp [seqFree] at h
  | Value.vTuple _, h => by simp [seqFree] at h
  | Value.vDict xs, h => by
    have h2 : seqFreeDict xs = true := by simpa [seqFree] using h
    simp only [scanConvert, seqFree]
    exact seqFreeDict_scanConvertDict xs h2

theorem seqFreeDict_scanConvertDict :
    ∀ xs, seqFreeDict xs = true → seqFreeDict (scanConvertDict xs) = true
  | [], _ => by simp [scanConvertDict, seqFreeDict]
  | (k, v) :: vs, h => by
    have h12 : seqFree v = true ∧ seqFreeDict vs = true := by
      simpa [seqFreeDict, Bool.and_eq_true] using h
    simp only [scanConvertDict, seqFreeDict, Bool.and_eq_true]
    exact ⟨seqFree_scanConvert v h12.1, seqFreeDict_scanConvertDict vs h12.2⟩
end

theorem pairGroups_length {α : Type} :
    ∀ rows : List α, (pairGroups rows).length = (rows.length + 1) / 2
  | [] => by simp [pairGroups]
  | [_] => by simp [pairGroups]
  | a :: b :: rest => by
    simp only [pairGroups, List.length_cons]
    rw [pairGroups_length rest]
    omega

theorem tsResolvedDate_isSome (today : Int) {df : List BidRecord} (h : df ≠ []) :
    ∃ d, tsResolvedDate today df = some d := by
  have hsne : bidsSorted df ≠ [] := by
    intro hc
    have hp : df.Perm (bidsSorted df) := (List.perm_insertionSort _ df).symm
    rw [hc] at hp
    exact h hp.eq_nil
  unfold tsResolvedDate
  by_cases he : ((bidsSorted df).filter (fun r => today ≤ r.date)).isEmpty
  · rw [if_pos he]
    cases hm : ((bidsSorted df).map BidRecord.date).max? with
    | none =>
      have := List.max?_eq_none_iff.mp hm
      have : bidsSorted df = [] := by
        cases hb : bidsSorted df with
        | nil => rfl
        | cons x xs => rw [hb] at this; exact absurd this (by simp)
      exact absurd this hsne
    | some d => exact ⟨d, rfl⟩
  · rw [if_neg he]
    cases hm : (((bidsSorted df).filter (fun r => today ≤ r.date)).map BidRecord.date).min? with
    | none =>
      have h0 := List.min?_eq_none_iff.mp hm
      have : (bidsSorted df).filter (fun r => today ≤ r.date) = [] := by
        cases hb : (bidsSorted df).filter (fun r => today ≤ r.date) with
        | nil => rfl
        | cons x xs => rw [hb] at h0; exact absurd h0 (by simp)
      rw [this] at he
      exact absurd rfl he
    | some d => exact ⟨d, rfl⟩

theorem filterMap_numVal_eq_map_toQ (l : List UtilRecord)
    (h : (l.all fun r => (r.price.numVal).isSome) = true) :
    l.filterMap (fun r => r.price.numVal) = l.map (fun r => r.price.toQ) := by
  have hcg : l.filterMap (fun r => r.price.numVal) =
      l.filterMap (fun r => (some ∘ fun x : UtilRecord => x.price.toQ) r) := by
    apply List.filterMap_congr
    intro a ha
    have hs : (a.price.numVal).isSome = true := by
      have := List.all_eq_true.mp h a ha
      simpa using this
    cases hp : a.price with
    | num q => simp [PriceVal.numVal, PriceVal.toQ, hp]
    | strnum s q =>
      rw [hp] at hs
      exact absurd hs (by simp [PriceVal.numVal])
  rw [hcg]
  exact congrFun (List.filterMap_eq_map _) l

/-! ## Concrete inputs for counterexamples and witnesses -/

/-- Two utilization rows, in row order, with delivery dates day 7 then
day 3 (both in the future relative to "today" = day 0). -/
def exC1 : List UtilRecord :=
  [⟨7, "A LTD", some "ACCEPTED", .num 10, 5, "17:00", "17:30"⟩,
   ⟨3, "B LTD", some "ACCEPTED", .num 20, 5, "18:00", "18:30"⟩]

/-- The first row of `exC1`. -/
def exC1head : UtilRecord := ⟨7, "A LTD", some "ACCEPTED", .num 10, 5, "17:00", "17:30"⟩

/-- Utilization rows with dates {-1, 3, 7}; the only accepted bids are on
days -1 and 3, the day-7 row is rejected. -/
def exC2 : List UtilRecord :=
  [⟨-1, "A LTD", some "ACCEPTED", .num 10, 5, "17:00", "17:30"⟩,
   ⟨3, "B LTD", some "ACCEPTED", .num 20, 5, "17:00", "17:30"⟩,
   ⟨7, "C LTD", some "REJECTED", .num 30, 5, "17:00", "17:30"⟩]

/-- The day-3 accepted row of `exC2`. -/
def exC2mid : UtilRecord := ⟨3, "B LTD", some "ACCEPTED", .num 20, 5, "17:00", "17:30"⟩

/-- Two accepted rows on one date with prices 45 and 60. -/
def exTie : List UtilRecord :=
  [⟨3, "A LTD", some "ACCEPTED", .num 45, 5, "17:00", "17:30"⟩,
   ⟨3, "B LTD", some "ACCEPTED", .num 60, 5, "18:00", "18:30"⟩]

/-- The price-60 row of `exTie`. -/
def exTieTop : UtilRecord := ⟨3, "B LTD", some "ACCEPTED", .num 60, 5, "18:00", "18:30"⟩

/-- The price-45 row of `exTie`. -/
def exTieLow : UtilRecord := ⟨3, "A LTD", some "ACCEPTED", .num 45, 5, "17:00", "17:30"⟩

/-- The source timestamp of the spec's formatting example:
2024-03-01T10:15:30.123456+00:00 (day 19783 since the epoch). -/
def exTimestamp : PyDateTime :=
  ⟨19783 * 86400 + 10 * 3600 + 15 * 60 + 30, 123456, some 0⟩

/-! ## The claims -/

/-- C1, counterexample: on the record set `exC1` (dates 7 and 3, both
≥ today = 0) the spec's rule resolves day 3, but the utilization `latest`
selection (lines 119–123) picks the first future row in row order — the
day-7 record — so the two selections do NOT follow the same rule. -/
theorem dateRule_counterexample :
    specResolvedDate 0 (exC1.map UtilRecord.date) = some 3 ∧
    (utilLatest 0 exC1).map UtilRecord.date = some 7 ∧
    (utilLatest 0 exC1).map UtilRecord.date ≠ specResolvedDate 0 (exC1.map UtilRecord.date) :=
  ⟨rfl, rfl, by decide⟩

/-- C1, amended: the eligibility time-slot summary (`_format_time_slots`)
does follow the spec's earliest-≥-today-else-maximum rule, but the
utilization `latest` selection instead takes the first record in row order
whose date is ≥ today, falling back to the first record in row order. -/
theorem dateRule_amended (today : Int) (bdf : List BidRecord) (udf : List UtilRecord) :
    tsResolvedDate today bdf = specResolvedDate today (bdf.map BidRecord.date) ∧
    ∀ r, utilLatest today udf = some r →
      (∃ l1 l2, udf = l1 ++ r :: l2 ∧ today ≤ r.date ∧ ∀ x ∈ l1, x.date < today) ∨
      ((∀ x ∈ udf, x.date < today) ∧ udf.head? = some r) := by
  refine ⟨tsResolvedDate_eq_spec today bdf, ?_⟩
  intro r h
  unfold utilLatest futureUtil at h
  cases hf : (udf.filter (fun r => today ≤ r.date)).head? with
  | some r0 =>
    rw [hf] at h
    have hr : r0 = r := by simpa using h
    subst hr
    obtain ⟨l1, l2, hsplit, hp, hnp⟩ := head?_filter_eq_some hf
    left
    refine ⟨l1, l2, hsplit, by simpa using hp, ?_⟩
    intro x hx
    have := hnp x hx
    simp only [decide_eq_false_iff_not, not_le] at this
    exact this
  | none =>
    rw [hf] at h
    right
    refine ⟨?_, h⟩
    intro x hx
    have hnil : udf.filter (fun r => today ≤ r.date) = [] := by
      cases hc : udf.filter (fun r => today ≤ r.date) with
      | nil => rfl
      | cons y ys => rw [hc] at hf; exact absurd hf (by simp)
    have hnx : x ∉ udf.filter (fun r => today ≤ r.date) := by rw [hnil]; simp
    by_contra hlt
    exact hnx (List.mem_filter.mpr ⟨hx, by simpa using not_lt.mp hlt⟩)

/-- C1, witness for the amended rule at concrete inputs. -/
theorem dateRule_amended_witness :
    tsResolvedDate 0 [⟨3, "18:00", "18:30", none, none⟩] =
      specResolvedDate 0 ([⟨3, "18:00", "18:30", none, none⟩].map BidRecord.date) ∧
    ((∃ l1 l2, exC1 = l1 ++ exC1head :: l2 ∧ (0 : Int) ≤ exC1head.date ∧
        ∀ x ∈ l1, x.date < 0) ∨
     ((∀ x ∈ exC1, x.date < 0) ∧ exC1.head? = some exC1head)) :=
  ⟨(dateRule_amended 0 [⟨3, "18:00", "18:30", none, none⟩] exC1).1,
   (dateRule_amended 0 [⟨3, "18:00", "18:30", none, none⟩] exC1).2 exC1head rfl⟩

/-- C2, counterexample: with dates {-1, 3, 7} and accepted bids only on
day 3 (today = 0, so the spec's resolved date is 3), the code filters to
the maximum date 7 and finds no accepted bid, publishing a null state with
empty attributes — not the spec's resolved-date selection and not the
"No accepted bids" sentinel. -/
theorem acceptedBid_counterexample :
    highestAccepted exC2 = none ∧
    specHighestAccepted 0 exC2 = some exC2mid ∧
    (highestAcceptedState 0 "t" exC2).state = Value.vNull ∧
    (highestAcceptedState 0 "t" exC2).attributes = [] ∧
    Value.vNull ≠ Value.vStr "No accepted bids" :=
  ⟨rfl, rfl, rfl, rfl, fun h => Value.noConfusion h⟩

/-- C2, amended: the accepted-bid selection filters to the MAXIMUM delivery
date of the record set (not the spec's resolved date), then picks the first
accepted row attaining the maximum coerced price (string-typed prices are
coerced by `PriceVal.toQ`); when the filtered set is empty the coordinator
publishes a null state with empty attributes (the `No accepted bids`
sentinel exists only in the standalone script). -/
theorem acceptedBid_amended (loc : Int) (nowIso : String) (df : List UtilRecord) :
    (∀ r ∈ acceptedBids df, statusAccepted r.status = true ∧
        ∃ d, mostRecentDate df = some d ∧ r.date = d ∧ ∀ x ∈ df, x.date ≤ d) ∧
    (∀ r, highestAccepted df = some r →
        r ∈ acceptedBids df ∧
        (∀ x ∈ acceptedBids df, x.price.toQ ≤ r.price.toQ) ∧
        ∃ l1 l2, acceptedBids df = l1 ++ r :: l2 ∧
          ∀ x ∈ l1, x.price.toQ < r.price.toQ) ∧
    (acceptedBids df = [] →
        highestAcceptedState loc nowIso df = { state := Value.vNull, attributes := [] }) := by
  refine ⟨?_, ?_, ?_⟩
  · intro r hr
    unfold acceptedBids at hr
    have hm1 := List.mem_filter.mp hr
    refine ⟨hm1.2, ?_⟩
    have hrec := hm1.1
    unfold recentBids at hrec
    cases hm : mostRecentDate df with
    | none => rw [hm] at hrec; exact absurd hrec (by simp)
    | some d =>
      rw [hm] at hrec
      have hm2 := List.mem_filter.mp hrec
      exact ⟨d, rfl, by simpa using hm2.2, (mostRecentDate_is_max hm).2⟩
  · intro r h
    obtain ⟨⟨l1, l2, hsplit, hlt⟩, hle⟩ := argmaxPrice_spec h
    refine ⟨?_, hle, l1, l2, hsplit, hlt⟩
    rw [hsplit]
    exact List.mem_append.mpr (Or.inr (List.mem_cons_self _ _))
  · intro h
    have hnone : highestAccepted df = none := by
      unfold highestAccepted
      rw [h]
      simp [argmaxPrice]
    simp [highestAcceptedState, hnone]

/-- C2, witness: on `exTie` (accepted prices 45 and 60 on one date) the
selection picks the price-60 row, which dominates the price-45 row. -/
theorem acceptedBid_amended_witness :
    exTieTop ∈ acceptedBids exTie ∧ exTieLow.price.toQ ≤ exTieTop.price.toQ :=
  ⟨((acceptedBid_amended 0 "t" exTie).2.1 exTieTop rfl).1,
   ((acceptedBid_amended 0 "t" exTie).2.1 exTieTop rfl).2.1 exTieLow (by decide)⟩

/-- C4, counterexample: normalization is NOT idempotent on sequences.  A
2-tuple (10, 20) normalizes successfully to the list [10, 20], but
normalizing that result raises `pd.isna`'s elementwise-array ValueError, so
normalize(normalize v) ≠ normalize v; and the already-normalized list
[None] re-normalizes to None, not to itself. -/
theorem normalization_counterexample :
    haConvertE 0 (Value.vTuple [Value.vInt 10, Value.vInt 20]) =
      Except.ok (Value.vList [Value.vInt 10, Value.vInt 20]) ∧
    haConvertE 0 (Value.vList [Value.vInt 10, Value.vInt 20]) =
      Except.error ambiguousTruth ∧
    (Except.error ambiguousTruth : Except String Value) ≠
      Except.ok (Value.vList [Value.vInt 10, Value.vInt 20]) ∧
    scanConvertE (Value.vList [Value.vInt 10, Value.vInt 20]) =
      Except.error ambiguousTruth ∧
    scanConvertE (Value.vList [Value.vNull]) = Except.ok Value.vNull ∧
    (Except.ok Value.vNull : Except String Value) ≠
      Except.ok (Value.vList [Value.vNull]) :=
  ⟨rfl, rfl, fun h => Except.noConfusion h, rfl, rfl,
   by intro h; injection h with h2; exact Value.noConfusion h2⟩

/-- C4, amended: both normalizers are idempotent on sequence-free values —
scalars and (nested) mappings of scalars, the only shapes the pipeline
feeds them: there the full model returns a value that agrees with the
branch-body function, and re-normalizing that result is a no-op.  On
sequences idempotence fails, because `pd.isna` on a list returns an
elementwise array: lists of length ≥ 2 raise ValueError and single-null
lists collapse to None (see the counterexample). -/
theorem normalization_idempotent_amended :
    (∀ (loc : Int) (v : Value), seqFree v = true →
        haConvertE loc v = Except.ok (haConvert loc v) ∧
        haConvertE loc (haConvert loc v) = Except.ok (haConvert loc v) ∧
        haConvert loc (haConvert loc v) = haConvert loc v) ∧
    (∀ v : Value, seqFree v = true →
        scanConvertE v = Except.ok (scanConvert v) ∧
        scanConvertE (scanConvert v) = Except.ok (scanConvert v) ∧
        scanConvert (scanConvert v) = scanConvert v) := by
  constructor
  · intro loc v h
    refine ⟨haConvertE_agree loc v h, ?_, haConvert_idem loc v⟩
    rw [haConvertE_agree loc (haConvert loc v) (seqFree_haConvert loc v h),
      haConvert_idem loc v]
  · intro v h
    refine ⟨scanConvertE_agree v h, ?_, scanConvert_idem v⟩
    rw [scanConvertE_agree (scanConvert v) (seqFree_scanConvert v h),
      scanConvert_idem v]

/-- C4, witness: a one-key mapping of a numpy float, and a plain string. -/
theorem normalization_idempotent_amended_witness :
    (haConvertE 0 (Value.vDict [("a", Value.vNpFloat 3)]) =
        Except.ok (haConvert 0 (Value.vDict [("a", Value.vNpFloat 3)])) ∧
      haConvertE 0 (haConvert 0 (Value.vDict [("a", Value.vNpFloat 3)])) =
        Except.ok (haConvert 0 (Value.vDict [("a", Value.vNpFloat 3)])) ∧
      haConvert 0 (haConvert 0 (Value.vDict [("a", Value.vNpFloat 3)])) =
        haConvert 0 (Value.vDict [("a", Value.vNpFloat 3)])) ∧
    (scanConvertE (Value.vStr "x") = Except.ok (scanConvert (Value.vStr "x")) ∧
      scanConvertE (scanConvert (Value.vStr "x")) =
        Except.ok (scanConvert (Value.vStr "x")) ∧
      scanConvert (scanConvert (Value.vStr "x")) = scanConvert (Value.vStr "x")) :=
  ⟨normalization_idempotent_amended.1 0 (Value.vDict [("a", Value.vNpFloat 3)]) rfl,
   normalization_idempotent_amended.2 (Value.vStr "x") rfl⟩

/-- C5, code bug: the coordinator's comments say "Ensure consistent UTC
timezone" / "Convert to UTC", but `astimezone(datetime.now().astimezone().tzinfo)`
converts to the process-LOCAL offset.  With a local offset of +01:00 the
spec's example input 2024-03-01T10:15:30.123456+00:00 serializes to
"2024-03-01T11:15:30+01:00", not the claimed "2024-03-01T10:15:30+00:00";
the claimed string is produced only when the local offset is UTC itself.
Microsecond truncation does hold. -/
theorem timestampConversion_code_bug :
    haConvert 3600 (Value.vTime exTimestamp) = Value.vStr "2024-03-01T11:15:30+01:00" ∧
    haConvert 0 (Value.vTime exTimestamp) = Value.vStr "2024-03-01T10:15:30+00:00" ∧
    ("2024-03-01T11:15:30+01:00" : String) ≠ "2024-03-01T10:15:30+00:00" :=
  ⟨rfl, rfl, by decide⟩

/-- Two bid-eligibility rows, in row order, used by C3 and C8: same date,
contiguous time slots, identical capacity and guaranteed price. -/
def exC8 : List BidRecord :=
  [⟨3, "17:00", "17:30", some 300, some 45⟩,
   ⟨3, "17:30", "18:00", some 300, some 45⟩]

/-- A successful bid-query response carrying `exC8`. -/
def exBidsResp : BidsResp := ⟨200, true, true, exC8⟩

/-- Two participant rows with prices 10 (day 0) and 30 (day 1). -/
def exC7 : List UtilRecord :=
  [⟨0, "OCTOPUS ENERGY LIMITED", some "ACCEPTED", .num 10, 10, "00:00", "00:30"⟩,
   ⟨1, "OCTOPUS ENERGY LIMITED", some "ACCEPTED", .num 30, 20, "01:00", "01:30"⟩]

/-- The rows of `exC7` with their prices string-typed ("10" and "30"),
making the price column object-dtype. -/
def exC7str : List UtilRecord :=
  [⟨0, "OCTOPUS ENERGY LIMITED", some "ACCEPTED", .strnum "10" 10, 10, "00:00", "00:30"⟩,
   ⟨1, "OCTOPUS ENERGY LIMITED", some "ACCEPTED", .strnum "30" 30, 20, "01:00", "01:30"⟩]

/-- Four participant rows on one date with start times 00:00, 00:30,
01:00, 01:30 and volumes 10, 10, 20, 20. -/
def exC6 : List UtilRecord :=
  [⟨3, "OCTOPUS ENERGY LIMITED", some "ACCEPTED", .num 1, 10, "00:00", "00:30"⟩,
   ⟨3, "OCTOPUS ENERGY LIMITED", some "ACCEPTED", .num 2, 10, "00:30", "01:00"⟩,
   ⟨3, "OCTOPUS ENERGY LIMITED", some "ACCEPTED", .num 3, 20, "01:00", "01:30"⟩,
   ⟨3, "OCTOPUS ENERGY LIMITED", some "ACCEPTED", .num 4, 20, "01:30", "02:00"⟩]

/-- Two participant rows on different dates (day 0 and day 1). -/
def exC6X : List UtilRecord :=
  [⟨0, "OCTOPUS ENERGY LIMITED", some "ACCEPTED", .num 1, 10, "00:00", "00:30"⟩,
   ⟨1, "OCTOPUS ENERGY LIMITED", some "ACCEPTED", .num 3, 20, "01:00", "01:30"⟩]

/-- C3, counterexample: a successful cycle publishes the price key, but
when the utilization query then fails while the bid query succeeds, the
freshly merged mapping contains only the bid key and the utilization
error-status key — the previously published price key is missing, not
retained. -/
theorem failedCycleKeys_counterexample :
    (lookupState (utilizationStates 1 0 "t0" exC7) "octopus_dfs_session_price").isSome = true ∧
    lookupState (asyncUpdateData (checkOctopusBids 1 0 exBidsResp) (utilErrorStates "t1" "boom"))
        "octopus_dfs_session_price" = none ∧
    (lookupState (asyncUpdateData (checkOctopusBids 1 0 exBidsResp) (utilErrorStates "t1" "boom"))
        "octopus_dfs_session_details").isSome = true ∧
    lookupState (asyncUpdateData (checkOctopusBids 1 0 exBidsResp) (utilErrorStates "t1" "boom"))
        "octopus_dfs_session_utilization" =
      some { state := Value.vStr "error",
             attributes := [("last_checked", Value.vStr "t1"), ("error", Value.vStr "boom")] } :=
  ⟨rfl, rfl, rfl, rfl⟩

/-- C3, amended: when the utilization query fails, the cycle's published
mapping is exactly the bid-derived keys plus the single utilization
error-status key; the previous cycle's other utilization keys are dropped
(the coordinator replaces its data wholesale), not retained. -/
theorem failedCycleKeys_amended (bids : StatesMap) (nowIso msg k : String) :
    lookupState (asyncUpdateData bids (utilErrorStates nowIso msg)) k =
      if k = "octopus_dfs_session_utilization"
      then some { state := Value.vStr "error",
                  attributes := [("last_checked", Value.vStr nowIso),
                                 ("error", Value.vStr msg)] }
      else lookupState bids k := by
  unfold asyncUpdateData mergeStates lookupState utilErrorStates
  rw [List.find?_append]
  by_cases hk : k = "octopus_dfs_session_utilization"
  · subst hk
    rw [if_pos rfl]
    rw [find?_filter_none]
    · simp [List.find?]
    · intro p hp
      simp [List.find?, hp]
  · rw [if_neg hk]
    have h2 : List.find? (fun p => p.1 == k)
        [("octopus_dfs_session_utilization",
          ({ state := Value.vStr "error",
             attributes := [("last_checked", Value.vStr nowIso),
                            ("error", Value.vStr msg)] } : SensorState))] = none := by
      rw [List.find?_eq_none]
      intro x hx hxc
      rw [List.mem_singleton] at hx
      subst hx
      exact hk ((by simpa using hxc : "octopus_dfs_session_utilization" = k)).symm
    have hcond : ∀ x : String × SensorState, (x.1 == k) = true →
        (fun p : String × SensorState =>
          (List.find? (fun q => q.1 == p.1)
            [("octopus_dfs_session_utilization",
              ({ state := Value.vStr "error",
                 attributes := [("last_checked", Value.vStr nowIso),
                                ("error", Value.vStr msg)] } : SensorState))]).isNone) x = true := by
      intro x hx
      have hx1 : x.1 = k := by simpa using hx
      have hne : ("octopus_dfs_session_utilization" == x.1) = false := by
        rw [hx1]
        exact beq_eq_false_iff_ne.mpr (fun hc => hk hc.symm)
      simp [hne]
    rw [h2, find?_filter_eq bids _ _ hcond, Option.or_none]

/-- C6, counterexample: with participant records on two dates (day 0 and
day 1, today = 1, resolved date 1), the code pairs the day-0 record with
the day-1 record — the emitted window combines both dates — whereas the
claim's pairing over only the resolved date's records yields a single
lone window. -/
theorem pairing_counterexample :
    timeWindows exC6X = ["00:00 - 00:30, 01:00 - 01:30"] ∧
    specPairWindows 1 exC6X = ["01:00 - 01:30"] ∧
    timeWindows exC6X ≠ specPairWindows 1 exC6X :=
  ⟨rfl, rfl, by decide⟩

/-- C6, amended: the pairing applies to ALL of the tracked participant's
records, sorted by (delivery date, start time) — not only the resolved
date's records.  Consecutive records are paired (0 with 1, 2 with 3, …), a
lone trailing record forms its own group, each group yields one combined
window string and one combined volume string joined with ", ", and the
claim's four-record example produces exactly two groups with volumes
"10, 10" and "20, 20". -/
theorem pairing_amended :
    (∀ rows : List UtilRecord, (pairGroups rows).length = (rows.length + 1) / 2) ∧
    (∀ (a b : UtilRecord) (rest : List UtilRecord),
        pairGroups (a :: b :: rest) = (a, some b) :: pairGroups rest) ∧
    (∀ a : UtilRecord, pairGroups [a] = [(a, none)]) ∧
    (∀ r1 r2 : UtilRecord,
        windowStr (r1, some r2) =
          r1.tFrom ++ " - " ++ r1.tTo ++ ", " ++ r2.tFrom ++ " - " ++ r2.tTo ∧
        volStr (r1, some r2) = toString r1.volume ++ ", " ++ toString r2.volume) ∧
    timeWindows exC6 = ["00:00 - 00:30, 00:30 - 01:00", "01:00 - 01:30, 01:30 - 02:00"] ∧
    volumeStrings exC6 = ["10, 10", "20, 20"] :=
  ⟨pairGroups_length, fun _ _ _ => rfl, fun _ => rfl, fun _ _ => ⟨rfl, rfl⟩, rfl, rfl⟩

/-- C7, counterexample: with participant prices 10 (day 0) and 30 (day 1)
and today = 1 (resolved date 1), the published price state is the mean 20
over ALL the participant's records, not the resolved-date mean 30; the
published attributes hold only `individual_prices` — no min, max or count;
and with string-typed prices the uncoerced `.mean()` raises TypeError into
the error handler, so no price key is published at all — never an
elementwise mean of coerced strings. -/
theorem priceMean_counterexample :
    (priceState 0 exC7).state = Value.vFloat 20 ∧
    specAvgPrice 1 exC7 = some 30 ∧
    (priceState 0 exC7).attributes.map Prod.fst = ["individual_prices"] ∧
    Value.vFloat 20 ≠ Value.vFloat 30 ∧
    checkUtilization 1 0 "t" ⟨200, true, true, exC7str⟩ =
      utilErrorStates "t" "TypeError: could not convert string to float" ∧
    lookupState (checkUtilization 1 0 "t" ⟨200, true, true, exC7str⟩)
      "octopus_dfs_session_price" = none := by
  refine ⟨?_, ?_, rfl, ?_, rfl, rfl⟩
  · show Value.vFloat (avgPrice exC7) = Value.vFloat 20
    have hv : avgPrice exC7 = 20 := by
      norm_num [avgPrice, octRecords, octName, exC7, PriceVal.numVal,
        List.filterMap_cons]
    rw [hv]
  · norm_num [specAvgPrice, specResolvedDate, octRecords, octName, exC7,
      PriceVal.toQ, List.min?]
  · intro h
    injection h with h2
    exact absurd h2 (by norm_num)

/-- C7, amended: when the tracked participant's price column is numeric —
the only case in which line 266's uncoerced `Series.mean()` computes a
mean at all; a string-typed price raises TypeError out of the analysis —
the published price value is the arithmetic mean of the participant's
utilization prices over ALL delivery dates in the record set, and the only
attribute retained on that output is the list of individual prices (no
min/max/count are attached by the coordinator). -/
theorem priceMean_amended (today loc : Int) (nowIso : String) (df : List UtilRecord)
    (h : octRecords df ≠ []) (hnum : octPricesNumeric df = true) :
    lookupState (utilizationStates today loc nowIso df) "octopus_dfs_session_price" =
      some { state := Value.vFloat (avgPrice df),
             attributes := [("individual_prices",
               Value.vList ((octRecords df).map (fun r => haConvert loc r.price.raw)))] } ∧
    avgPrice df = (((octRecords df).map (fun r => r.price.toQ)).sum) /
      ((octRecords df).length : ℚ) := by
  have hfm : (octRecords df).filterMap (fun r => r.price.numVal) =
      (octRecords df).map (fun r => r.price.toQ) :=
    filterMap_numVal_eq_map_toQ (octRecords df)
      (by simpa [octPricesNumeric] using hnum)
  constructor
  · have h1 : lookupState (utilizationStates today loc nowIso df)
        "octopus_dfs_session_price" = some (priceState loc df) := rfl
    rw [h1]
    have he : (octRecords df).isEmpty = false := by simp [h]
    simp [priceState, he, haConvert]
  · unfold avgPrice
    rw [hfm]
    simp [List.length_map]

/-- C7, witness for the amended statement at `exC7` (numeric prices). -/
theorem priceMean_amended_witness :
    (lookupState (utilizationStates 1 0 "t" exC7) "octopus_dfs_session_price" =
      some { state := Value.vFloat (avgPrice exC7),
             attributes := [("individual_prices",
               Value.vList ((octRecords exC7).map (fun r => haConvert 0 r.price.raw)))] } ∧
    avgPrice exC7 = (((octRecords exC7).map (fun r => r.price.toQ)).sum) /
      ((octRecords exC7).length : ℚ)) :=
  priceMean_amended 1 0 "t" exC7 (by decide) (by decide)

/-- C8, counterexample: on two contiguous rows with identical capacity and
guaranteed price, `_format_time_slots` emits one bullet line per row,
whereas the claim's contiguous grouping merges them into a single period
line spanning 17:00–18:00. -/
theorem timeSlots_counterexample :
    formatTimeSlots 0 exC8 =
      "\n**1970-01-04 00:00:00**\n• 17:00 - 17:30 (300 MW) with a guaranteed acceptance price of £45/MWh\n• 17:30 - 18:00 (300 MW) with a guaranteed acceptance price of £45/MWh" ∧
    specFormatTimeSlots 0 exC8 =
      "\n**1970-01-04 00:00:00**\n• 17:00 - 18:00 (300 MW) with a guaranteed acceptance price of £45/MWh" ∧
    formatTimeSlots 0 exC8 ≠ specFormatTimeSlots 0 exC8 :=
  ⟨rfl, rfl, by decide⟩

/-- C8, amended: the eligibility listing anchors on the resolved date
(earliest ≥ today, else maximum) and emits the date header plus exactly one
line per row of that date — no grouping of contiguous rows — where each
line includes capacity and guaranteed price only when the field is
present. -/
theorem timeSlots_amended (today : Int) (df : List BidRecord) (h : df ≠ []) :
    ∃ d, tsResolvedDate today df = some d ∧
      specResolvedDate today (df.map BidRecord.date) = some d ∧
      formatTimeSlots today df =
        String.intercalate "\n"
          (("\n**" ++ pandasTsStr d ++ "**")
            :: ((bidsSorted df).filter (fun r => r.date == d)).map slotLine) ∧
      (∀ r : BidRecord, r.mw = none → r.gprice = none →
          slotLine r = "• " ++ r.tFrom ++ " - " ++ r.tTo) ∧
      (∀ (r : BidRecord) (m p : Int), r.mw = some m → r.gprice = some p →
          slotLine r = "• " ++ r.tFrom ++ " - " ++ r.tTo ++ " (" ++ toString m ++ " MW)"
            ++ " with a guaranteed acceptance price of £" ++ toString p ++ "/MWh") := by
  obtain ⟨d, hd⟩ := tsResolvedDate_isSome today h
  have he : df.isEmpty = false := by simp [h]
  refine ⟨d, hd, ?_, ?_, ?_, ?_⟩
  · rw [← tsResolvedDate_eq_spec]
    exact hd
  · simp [formatTimeSlots, he, hd]
  · intro r h1 h2
    simp [slotLine, h1, h2]
  · intro r m p h1 h2
    simp [slotLine, h1, h2]

/-- C8, witness for the amended statement at `exC8`. -/
theorem timeSlots_amended_witness :
    ∃ d, tsResolvedDate 0 exC8 = some d ∧
      specResolvedDate 0 (exC8.map BidRecord.date) = some d ∧
      formatTimeSlots 0 exC8 =
        String.intercalate "\n"
          (("\n**" ++ pandasTsStr d ++ "**")
            :: ((bidsSorted exC8).filter (fun r => r.date == d)).map slotLine) ∧
      (∀ r : BidRecord, r.mw = none → r.gprice = none →
          slotLine r = "• " ++ r.tFrom ++ " - " ++ r.tTo) ∧
      (∀ (r : BidRecord) (m p : Int), r.mw = some m → r.gprice = some p →
          slotLine r = "• " ++ r.tFrom ++ " - " ++ r.tTo ++ " (" ++ toString m ++ " MW)"
            ++ " with a guaranteed acceptance price of £" ++ toString p ++ "/MWh") :=
  timeSlots_amended 0 exC8 (by decide)

/-- C9, confirmed: an HTTP 409 makes the utilization query path return an
empty record set without raising; the cycle publishes no utilization keys
for it but is not marked failed — the merged mapping is exactly the bid
side's. -/
theorem conflict409_recovered (today loc : Int) (nowIso : String) (resp : HttpResp)
    (bids : StatesMap) (h : resp.status = 409) :
    fetchUtilRecords resp = Except.ok [] ∧
    checkUtilization today loc nowIso resp = [] ∧
    ∀ k, lookupState (asyncUpdateData bids (checkUtilization today loc nowIso resp)) k =
      lookupState bids k := by
  have hf : fetchUtilRecords resp = Except.ok [] := by
    simp [fetchUtilRecords, h]
  have hc : checkUtilization today loc nowIso resp = [] := by
    unfold checkUtilization
    rw [hf]
  refine ⟨hf, hc, ?_⟩
  intro k
  rw [hc]
  unfold asyncUpdateData mergeStates lookupState
  simp

/-- C9, witness at a concrete 409 response and bid mapping. -/
theorem conflict409_recovered_witness :
    fetchUtilRecords ⟨409, true, true, []⟩ = Except.ok [] ∧
    checkUtilization 0 0 "t" ⟨409, true, true, []⟩ = [] ∧
    lookupState
      (asyncUpdateData (checkOctopusBids 0 0 exBidsResp)
        (checkUtilization 0 0 "t" ⟨409, true, true, []⟩))
      "octopus_dfs_session_details" =
      lookupState (checkOctopusBids 0 0 exBidsResp) "octopus_dfs_session_details" := by
  obtain ⟨a, b, c⟩ :=
    conflict409_recovered 0 0 "t" ⟨409, true, true, []⟩ (checkOctopusBids 0 0 exBidsResp) rfl
  exact ⟨a, b, c "octopus_dfs_session_details"⟩

set_option linter.unusedVariables false in
/-- C10, confirmed: on every non-empty utilization record set the published
mapping contains the time-window, price and volume keys; when the tracked
participant has no records they are published with a null state and empty
attributes rather than omitted. -/
theorem utilizationKeys_present (today loc : Int) (nowIso : String) (df : List UtilRecord)
    (hne : df ≠ []) :
    lookupState (utilizationStates today loc nowIso df) "octopus_dfs_session_time_window" =
      some (timeWindowState df) ∧
    lookupState (utilizationStates today loc nowIso df) "octopus_dfs_session_price" =
      some (priceState loc df) ∧
    lookupState (utilizationStates today loc nowIso df) "octopus_dfs_session_volume" =
      some (volumeState df) ∧
    (octRecords df = [] →
      timeWindowState df = { state := Value.vNull, attributes := [] } ∧
      priceState loc df = { state := Value.vNull, attributes := [] } ∧
      volumeState df = { state := Value.vNull, attributes := [] }) := by
  refine ⟨rfl, rfl, rfl, ?_⟩
  intro hoct
  have he : (octRecords df).isEmpty = true := by simp [hoct]
  exact ⟨by simp [timeWindowState, he], by simp [priceState, he], by simp [volumeState, he]⟩

/-- C10, witness: a record set with one non-participant record. -/
theorem utilizationKeys_present_witness :
    lookupState (utilizationStates 0 0 "t" exC2) "octopus_dfs_session_time_window" =
      some (timeWindowState exC2) ∧
    lookupState (utilizationStates 0 0 "t" exC2) "octopus_dfs_session_price" =
      some (priceState 0 exC2) ∧
    lookupState (utilizationStates 0 0 "t" exC2) "octopus_dfs_session_volume" =
      some (volumeState exC2) ∧
    (octRecords exC2 = [] →
      timeWindowState exC2 = { state := Value.vNull, attributes := [] } ∧
      priceState 0 exC2 = { state := Value.vNull, attributes := [] } ∧
      volumeState exC2 = { state := Value.vNull, attributes := [] }) :=
  utilizationKeys_present 0 0 "t" exC2 (by decide)

end NesoOctowatch
